import Mathlib

/-!
Shallow embedding of the generic persistence layer (ODM) and crawler layer of
the `game_protoype_work` repository.

Embedded source files:
- `src/llm_engineering/database/base_mongo_odm.py` (class `NoSQLBaseDocument`:
  `__eq__`, `from_mongo`, `to_mongo`, `save`, `get_or_create`, `bulk_insert`,
  `find`, `bulk_find`),
- `src/llm_engineering/web_crawlers/custom_article_crawler.py`
  (`CustomArticleCrawler.extract`),
- `src/llm_engineering/web_crawlers/github_crawler.py` (`GithubCrawler.extract`),
- `src/llm_engineering/web_crawlers/dispatch_crawler.py`
  (`CrawlerDispatcher.register`),
- `src/tests/test_no_sql_base_document.py` (class `ExampleDocument`).

The concrete document variants (`ArticleDocument`, `RepositoryDocument`,
`UserDocument` from `llm_engineering.pages.documents`) and the dispatcher's
strategy-lookup method are not present in the repository snapshot; they are
modelled from the specification where noted.

External collaborators (the `uuid` library, pydantic validation, the MongoDB
driver, the filesystem, git) are modelled as explicit inputs or as abstract
operations with the behavior the code relies on.
-/

namespace LlmEng

/-- Identifier values produced by `uuid.uuid4()`. Only the identity of the
value matters to the embedded code; we carry a natural number. -/
structure UUID where
  val : Nat
deriving DecidableEq, Repr

/-- Textual rendering of a UUID, `str(u)` in Python. The `uuid` library is an
external collaborator; its hex rendering is modelled abstractly as an
injective encoding into strings (here: a run of `u` characters) together with
the inverse parser `parseUUID` below, which is all the embedded code relies
on. -/
def uuidToString (u : UUID) : String :=
  String.mk (List.replicate u.val 'u')

/-- Parsing a string as a UUID, `uuid.UUID(s)` in Python: succeeds exactly on
strings in the image of `uuidToString` and inverts it there; any other string
fails (the library raises `ValueError`). -/
def parseUUID (s : String) : Option UUID :=
  if s.data.all (fun c => c = 'u') then some ⟨s.data.length⟩ else none

theorem parseUUID_uuidToString (u : UUID) : parseUUID (uuidToString u) = some u := by
  simp [parseUUID, uuidToString]

mutual
/-- Runtime values stored in document fields and Mongo records: strings,
UUID objects, and nested string-keyed mappings (Python dicts). -/
inductive PyValue where
  | vstr (s : String)
  | vuuid (u : UUID)
  | vmap (m : PyMap)
deriving DecidableEq, Repr

/-- A nested Python dict with string keys, as an association sequence. -/
inductive PyMap where
  | nil
  | cons (k : String) (v : PyValue) (rest : PyMap)
deriving DecidableEq, Repr
end

mutual
/-- Whether a value is, or contains anywhere inside nested mappings, a
`uuid.UUID` object (a non-string identifier value). -/
def PyValue.hasUUID : PyValue → Bool
  | .vstr _ => false
  | .vuuid _ => true
  | .vmap m => m.hasUUID

/-- Whether any value of the mapping contains a `uuid.UUID` object. -/
def PyMap.hasUUID : PyMap → Bool
  | .nil => false
  | .cons _ v rest => v.hasUUID || rest.hasUUID
end

/-- Whether the value itself is a `uuid.UUID` object, `isinstance(value, uuid.UUID)`. -/
def PyValue.isUUIDObj : PyValue → Bool
  | .vuuid _ => true
  | _ => false

/-- A top-level Mongo record / keyword-argument dict: field name to value.
Python dict keys are unique; insertion order is preserved. -/
abbrev MRecord : Type := List (String × PyValue)

/-- Dict lookup `d[k]` / `k in d` on an association list (keys unique, first
match). -/
def alookup (k : String) : List (String × PyValue) → Option PyValue
  | [] => none
  | (k₁, v) :: rest => if k₁ = k then some v else alookup k rest

/-- Dict removal `d.pop(k)`: removes the entry with key `k` (first occurrence;
keys of a Python dict are unique). -/
def aerase (k : String) : List (String × PyValue) → List (String × PyValue)
  | [] => []
  | (k₁, v) :: rest => if k₁ = k then rest else (k₁, v) :: aerase k rest

/-- Error kinds the embedded code distinguishes: `ValueError` (empty record or
unparsable identifier) and a pydantic validation error (missing or mistyped
field on construction). -/
inductive DocError where
  | valueError
  | validationError
deriving DecidableEq, Repr

/-- Result of running a fragment of Python code that may raise: either a
normal value or a propagated exception. -/
inductive DRes (α : Type) where
  | ok (a : α)
  | raised (e : DocError)
deriving DecidableEq, Repr

/-- Whether the fragment completed normally. -/
def DRes.isOk {α : Type} : DRes α → Bool
  | .ok _ => true
  | .raised _ => false

/-- The class hierarchy of documents. `NoSQLBaseDocument`
(`src/llm_engineering/database/base_mongo_odm.py`) is the abstract base; each
concrete variant subclasses it directly. `ExampleDocument` is declared in
`src/tests/test_no_sql_base_document.py`; the Article/Repository/User variants
are imported from `llm_engineering.pages.documents`, which is absent from the
snapshot, and are modelled from the spec (one variant per content source, each
a direct Document subclass). -/
inductive DocClass where
  | noSQLBaseDocument
  | articleDocument
  | repositoryDocument
  | userDocument
  | exampleDocument
deriving DecidableEq, Repr

/-- Direct superclass, for the `isinstance` check in `__eq__`. -/
def parentClass : DocClass → Option DocClass
  | .noSQLBaseDocument => none
  | _ => some .noSQLBaseDocument

/-- Python `isinstance(x, target)` where `x` has dynamic class `c`:
`c` equals `target` or is a (here: direct) subclass of it. -/
def isInstanceOf (c target : DocClass) : Bool :=
  c = target ||
    match parentClass c with
    | some p => p = target
    | none => false

/-- Whether the class is one of the concrete document variants. -/
def isConcrete : DocClass → Bool
  | .noSQLBaseDocument => false
  | _ => true

/-- An in-memory document instance: its dynamic class, its `id` (the
`UUID4` field declared on `NoSQLBaseDocument`), and the remaining fields of
the concrete variant, in declaration order. -/
structure Document where
  cls : DocClass
  id : UUID
  fields : List (String × PyValue)
deriving DecidableEq, Repr

/-- `NoSQLBaseDocument.__eq__` (base_mongo_odm.py lines 42-47): returns
`isinstance(value, self.__class__) and self.id == value.id`; fields other
than `id` are not compared. -/
def pyEq (self other : Document) : Bool :=
  isInstanceOf other.cls self.cls && self.id == other.id

/-- Declared pydantic type of a field: `str`, `UUID4`, or a free-form dict. -/
inductive FieldType where
  | tStr
  | tUUID
  | tMap
deriving DecidableEq, Repr

/-- Declared non-`id` fields of each variant, in declaration order.
`exampleDocument` is from `src/tests/test_no_sql_base_document.py`
(`name: str`). Modelled from the spec: the Article/Repository/User variants'
module is absent from the snapshot; their fields are taken from spec section 3
and from the constructor calls in the two crawlers (content is a free-form
mapping; `author_id` is identifier-typed; the remaining fields are strings). -/
def classSchema : DocClass → List (String × FieldType)
  | .noSQLBaseDocument => []
  | .articleDocument =>
      [("content", .tMap), ("link", .tStr), ("platform", .tStr),
       ("author_id", .tUUID), ("author_full_name", .tStr)]
  | .repositoryDocument =>
      [("content", .tMap), ("name", .tStr), ("link", .tStr), ("platform", .tStr),
       ("author_id", .tUUID), ("author_full_name", .tStr)]
  | .userDocument =>
      [("first_name", .tStr), ("last_name", .tStr)]
  | .exampleDocument =>
      [("name", .tStr)]

/-- Whether a runtime value inhabits a declared field type. -/
def conformsTo : PyValue → FieldType → Bool
  | .vstr _, .tStr => true
  | .vuuid _, .tUUID => true
  | .vmap _, .tMap => true
  | _, _ => false

/-- Whether a field list realizes a schema: same names in declaration order,
each value inhabiting its declared type. -/
def fieldsMatch : List (String × PyValue) → List (String × FieldType) → Bool
  | [], [] => true
  | (n, v) :: fs, (n₁, t) :: ss => n == n₁ && conformsTo v t && fieldsMatch fs ss
  | _, _ => false

/-- A valid in-memory instance of a concrete document variant: its fields are
exactly the variant's declared fields with well-typed values. -/
def validDoc (d : Document) : Bool :=
  isConcrete d.cls && fieldsMatch d.fields (classSchema d.cls)

/-- Python `str(value)` for values the `to_mongo` id-rename can see. The only
case the class can reach is a UUID (the `id` field is `UUID4`); renderings of
other values are irrelevant to every claim and given fixed stand-ins. -/
def pyStrVal : PyValue → PyValue
  | .vuuid u => .vstr (uuidToString u)
  | .vstr s => .vstr s
  | .vmap _ => .vstr "dict"

/-- One step of the `to_mongo` conversion loop (base_mongo_odm.py lines
88-90): a top-level `uuid.UUID` value is replaced by its string form; every
other value, including nested mappings, is left unchanged. -/
def stringifyTop : String × PyValue → String × PyValue
  | (k, .vuuid u) => (k, .vstr (uuidToString u))
  | kv => kv

/-- `NoSQLBaseDocument.to_mongo` (base_mongo_odm.py lines 68-92) at the
default flags (`exclude_unset=False`, `by_alias=True`; no variant declares an
alias, and all fields are dumped). `model_dump` yields the `id` field followed
by the variant's fields in declaration order, with UUID and dict values kept
as objects (python mode). Then: if `_id` is absent and `id` present, `id` is
popped and `_id` is appended holding its string form; finally every remaining
top-level UUID value is converted to a string in place. -/
def to_mongo (d : Document) : List (String × PyValue) :=
  let parsed : List (String × PyValue) := ("id", PyValue.vuuid d.id) :: d.fields
  let parsed :=
    if (alookup "_id" parsed).isNone && (alookup "id" parsed).isSome then
      match alookup "id" parsed with
      | some v => aerase "id" parsed ++ [("_id", pyStrVal v)]
      | none => parsed
    else parsed
  parsed.map stringifyTop

/-- Pydantic validation of one keyword argument against its declared type:
a string is coerced to `UUID4` by parsing when the declaration is
identifier-typed; a value already of the declared type is kept; anything else
is a validation error. -/
def validateField : FieldType → PyValue → Option PyValue
  | .tStr, .vstr s => some (.vstr s)
  | .tUUID, .vuuid u => some (.vuuid u)
  | .tUUID, .vstr s => (parseUUID s).map PyValue.vuuid
  | .tMap, .vmap m => some (.vmap m)
  | _, _ => none

/-- Pydantic construction `cls(**data)` for the non-`id` fields: each declared
field must be present in the keyword arguments and validate against its
declared type; extra keys are ignored (pydantic's default). -/
def buildFields (data : List (String × PyValue)) :
    List (String × FieldType) → Option (List (String × PyValue))
  | [] => some []
  | (n, t) :: rest =>
    match alookup n data with
    | none => none
    | some v =>
      match validateField t v with
      | none => none
      | some v₁ =>
        match buildFields data rest with
        | none => none
        | some fs => some ((n, v₁) :: fs)

/-- Pydantic construction `cls(**dict(data, id=id))`: the `id` keyword
overrides any `id` key of `data`; the remaining fields are validated against
the variant's schema. `none` models a raised pydantic ValidationError. -/
def constructDoc (cls : DocClass) (id : UUID) (data : List (String × PyValue)) :
    Option Document :=
  (buildFields data (classSchema cls)).map (fun fs => ⟨cls, id, fs⟩)

/-- Result of `uuid.UUID(v)` on a record value: parses a string, raises on a
non-string or unparsable input. -/
def pyUUIDOf : PyValue → DRes UUID
  | .vstr s =>
    match parseUUID s with
    | some u => .ok u
    | none => .raised .valueError
  | _ => .raised .valueError

/-- `NoSQLBaseDocument.from_mongo` (base_mongo_odm.py lines 53-66): raises
`ValueError` on an empty record; pops `_id` (a missing key raises), parses it
into a UUID (raises on failure), and constructs the typed instance from the
remaining fields (pydantic raises on missing or mistyped fields). -/
def from_mongo (cls : DocClass) (data : List (String × PyValue)) : DRes Document :=
  if data.isEmpty then .raised .valueError
  else
    match alookup "_id" data with
    | none => .raised .valueError
    | some v =>
      match pyUUIDOf v with
      | .raised e => .raised e
      | .ok id =>
        match constructDoc cls id (aerase "_id" data) with
        | some d => .ok d
        | none => .raised .validationError

/-- Response of the store to a `find_one` call: a record, no match, or an
`errors.OperationFailure` raised by the driver. -/
inductive FindOneResult where
  | found (rec : List (String × PyValue))
  | notFound
  | opFailure
deriving DecidableEq, Repr

/-- Response of the store to a `find` (many) call. -/
inductive FindManyResult where
  | ok (records : List MRecord)
  | opFailure
deriving DecidableEq, Repr

/-- Outcome of the store's `insert_one` call: success or a raised
`errors.WriteError`. -/
inductive InsertResult where
  | ok
  | writeError
deriving DecidableEq, Repr

/-- `NoSQLBaseDocument.save` (base_mongo_odm.py lines 94-108): inserts
`to_mongo` of the instance and returns `self`; a `WriteError` from the store
is swallowed (logged) and `None` is returned. -/
def save (d : Document) : InsertResult → Option Document
  | .ok => some d
  | .writeError => none

/-- `NoSQLBaseDocument.find` (base_mongo_odm.py lines 152-165): returns the
deserialized record if `find_one` produced a truthy one, `None` when nothing
matched (or the record is falsy), and `None` when the driver raised an
`OperationFailure`; an exception raised by `from_mongo` is not an
`OperationFailure` and propagates. -/
def find (cls : DocClass) : FindOneResult → DRes (Option Document)
  | .opFailure => .ok none
  | .notFound => .ok none
  | .found rec =>
    if rec.isEmpty then .ok none
    else
      match from_mongo cls rec with
      | .ok d => .ok (some d)
      | .raised e => .raised e

/-- The list comprehension in `bulk_find` (base_mongo_odm.py line 175):
deserializes each record in order; an exception raised by `from_mongo` on any
record propagates (its `is not None` guard is vacuous, since `from_mongo`
never returns `None`). -/
def bulkCollect (cls : DocClass) : List MRecord → DRes (List Document)
  | [] => .ok []
  | r :: rest =>
    match from_mongo cls r with
    | .raised e => .raised e
    | .ok d =>
      match bulkCollect cls rest with
      | .raised e => .raised e
      | .ok ds => .ok (d :: ds)

/-- `NoSQLBaseDocument.bulk_find` (base_mongo_odm.py lines 167-178): on an
`OperationFailure` from the driver returns `[]`; otherwise deserializes the
returned records in order (see `bulkCollect`). -/
def bulk_find (cls : DocClass) : FindManyResult → DRes (List Document)
  | .opFailure => .ok []
  | .ok records => bulkCollect cls records

/-- Observable outcome of `get_or_create`: a returned value (possibly `None`,
since `save` can return `None`), a re-raised `OperationFailure`, or any other
exception propagating out of `from_mongo`/construction. -/
inductive GocResult where
  | ret (d : Option Document)
  | raisedOpFailure
  | raisedOther (e : DocError)
deriving DecidableEq, Repr

/-- `NoSQLBaseDocument.get_or_create` (base_mongo_odm.py lines 110-135):
`find_one` with the filters; a truthy record is deserialized and returned
(`from_mongo` exceptions propagate); otherwise a new instance is constructed
from the filter values (`freshId` models the `uuid4` default factory for the
`id` field, which no call site passes in the filters) and the result of
`save` — `None` on a swallowed `WriteError` — is returned. An
`OperationFailure` raised inside the `try` block is logged and re-raised. -/
def get_or_create (cls : DocClass) (filters : List (String × PyValue))
    (freshId : UUID) (findResp : FindOneResult) (ins : InsertResult) : GocResult :=
  match findResp with
  | .opFailure => .raisedOpFailure
  | .found rec =>
    if rec.isEmpty then
      match constructDoc cls freshId filters with
      | some d => .ret (save d ins)
      | none => .raisedOther .validationError
    else
      match from_mongo cls rec with
      | .ok d => .ret (some d)
      | .raised e => .raisedOther e
  | .notFound =>
    match constructDoc cls freshId filters with
    | some d => .ret (save d ins)
    | none => .raisedOther .validationError

/-- Characters after the first `://` separator, scanning left to right;
`none` when the separator is absent (urlparse then yields an empty netloc). -/
def afterSchemeSep : List Char → Option (List Char)
  | [] => none
  | ':' :: '/' :: '/' :: rest => some rest
  | _ :: rest => afterSchemeSep rest

/-- Characters up to (excluding) the first `/`. -/
def takeUntilSlash : List Char → List Char
  | [] => []
  | c :: rest => if c = '/' then [] else c :: takeUntilSlash rest

/-- `urlparse(url).netloc`: the host part between the `://` separator and the
next `/` (empty for a scheme-less string). -/
def netlocOf (url : String) : String :=
  match afterSchemeSep url.data with
  | some rest => String.mk (takeUntilSlash rest)
  | none => ""

/-- Last `/`-separated segment of a character list (`split("/")[-1]`),
accumulating the current segment and restarting it at each separator. -/
def lastSegment (acc : List Char) : List Char → List Char
  | [] => acc
  | c :: rest => if c = '/' then lastSegment [] rest else lastSegment (acc ++ [c]) rest

/-- Repository name extraction in `GithubCrawler.extract` (github_crawler.py
line 27): `link.rstrip("/").split("/")[-1]`. -/
def repoNameOf (link : String) : String :=
  String.mk (lastSegment [] ((link.data.reverse.dropWhile (fun c => c = '/')).reverse))

/-- Caller-supplied provenance (`kwargs["user"]`): the crawlers read `user.id`
and `user.full_name`. -/
structure UserCtx where
  id : UUID
  full_name : String
deriving DecidableEq, Repr

/-- The collection's answer to `find_one({"link": link})`: the first stored
record whose `link` field equals the given string. The collection is modelled
as the list of records inserted so far. -/
def findByLink (store : List MRecord) (link : String) : Option MRecord :=
  store.find? (fun r => alookup "link" r == some (.vstr link))

/-- Number of stored records whose `link` field equals the given string. -/
def linkCount (store : List MRecord) (link : String) : Nat :=
  (store.filter (fun r => alookup "link" r == some (.vstr link))).length

/-- `CustomArticleCrawler.extract` (custom_article_crawler.py lines 21-67) as
a transformer of the bound `ArticleDocument` collection. The dedup check is
`self.model.find(link=link)`: a stored record with this link is deserialized
(an exception from `from_mongo` propagates) and, being non-`None`, makes the
method return with nothing persisted. Otherwise content acquisition (the
langchain loader and transformer, external collaborators) is modelled by the
already-acquired `content` mapping; a fresh instance is constructed with the
platform derived from the link and provenance from `user` (`freshId` models
the `uuid4` default factory) and `save` inserts its `to_mongo` form
(`insertOk = false` models a swallowed `WriteError`, persisting nothing). -/
def extractArticle (store : List MRecord) (link : String) (content : PyMap)
    (user : UserCtx) (freshId : UUID) (insertOk : Bool) : DRes (List MRecord) :=
  match findByLink store link with
  | some r =>
    match from_mongo .articleDocument r with
    | .ok _ => .ok store
    | .raised e => .raised e
  | none =>
    let instance₁ : Document :=
      ⟨.articleDocument, freshId,
        [("content", .vmap content), ("link", .vstr link),
         ("platform", .vstr (netlocOf link)),
         ("author_id", .vuuid user.id), ("author_full_name", .vstr user.full_name)]⟩
    .ok (if insertOk then store ++ [to_mongo instance₁] else store)

/-- `GithubCrawler.extract` (github_crawler.py lines 18-80) as a transformer
of the bound `RepositoryDocument` collection. Dedup as in `extractArticle`.
`cloneEmpty` models `not os.listdir(local_temp)` after the clone (an empty
post-clone directory returns without persisting); the walked file `tree` is
an input (clone and file walk are external collaborators). On the main path a
fresh instance is constructed (name from the link, platform `"github"`,
provenance from `user`) and `save` inserts its `to_mongo` form. The temporary
directory lifecycle is modelled separately by `githubExtractFs`. -/
def extractGithub (store : List MRecord) (link : String) (cloneEmpty : Bool)
    (tree : PyMap) (user : UserCtx) (freshId : UUID) (insertOk : Bool) :
    DRes (List MRecord) :=
  match findByLink store link with
  | some r =>
    match from_mongo .repositoryDocument r with
    | .ok _ => .ok store
    | .raised e => .raised e
  | none =>
    if cloneEmpty then .ok store
    else
      let instance₁ : Document :=
        ⟨.repositoryDocument, freshId,
          [("content", .vmap tree), ("name", .vstr (repoNameOf link)),
           ("link", .vstr link), ("platform", .vstr "github"),
           ("author_id", .vuuid user.id), ("author_full_name", .vstr user.full_name)]⟩
      .ok (if insertOk then store ++ [to_mongo instance₁] else store)

/-- Process-visible filesystem state for the repository strategy: whether the
`tempfile.mkdtemp()` directory currently exists, and whether the process-wide
current working directory is that temporary directory (versus wherever it was
before the call). -/
structure FsState where
  tmpExists : Bool
  cwdIsTmp : Bool
deriving DecidableEq, Repr

/-- Behavior of the `git clone` subprocess call: a raised exception, or
completion after which `os.listdir(local_temp)` has the given entries. -/
inductive CloneResult where
  | raises
  | cloned (entries : List String)
deriving DecidableEq, Repr

/-- Behavior of the file walk and read phase: a raised exception (an OS error
while walking or reading) or a completed tree. -/
inductive WalkResult where
  | raises
  | tree (t : PyMap)
deriving DecidableEq, Repr

/-- Behavior of the construct-and-save phase: a raised exception (for example
`KeyError` when `kwargs` lacks `"user"`), a successful insert, or a
`WriteError` swallowed inside `save`. -/
inductive SaveCall where
  | raises
  | ok
  | writeError
deriving DecidableEq, Repr

/-- How one invocation of `GithubCrawler.extract` terminates. -/
inductive ExtractOutcome where
  | alreadyExists
  | emptyClone
  | completed
  | raised
deriving DecidableEq, Repr

/-- Control-flow and filesystem model of `GithubCrawler.extract`
(github_crawler.py lines 18-80). If the dedup lookup found a record, the
method returns before `tempfile.mkdtemp()`. Otherwise the temporary directory
is created, and the `try` body runs: `os.chdir(local_temp)` switches the
process working directory to it; the clone, the emptiness check, the file
walk, and the construct-and-save phase follow, each able to end the body
early as encoded by the oracles. Whatever the body's outcome, the `finally`
block runs `shutil.rmtree(local_temp)` on the state the body left — nothing
restores the working directory. -/
def githubExtractFs (found : Bool) (clone : CloneResult) (walk : WalkResult)
    (sv : SaveCall) (s₀ : FsState) : ExtractOutcome × FsState :=
  if found then (.alreadyExists, s₀)
  else
    let s₁ : FsState := { s₀ with tmpExists := true }
    let s₂ : FsState := { s₁ with cwdIsTmp := true }
    let outcome : ExtractOutcome :=
      match clone with
      | .raises => .raised
      | .cloned entries =>
        if entries.isEmpty then .emptyClone
        else
          match walk with
          | .raises => .raised
          | .tree _ =>
            match sv with
            | .raises => .raised
            | _ => .completed
    (outcome, { s₂ with tmpExists := false })

/-- Crawler strategy classes the dispatcher can register. -/
inductive StrategyType where
  | githubCrawler
  | customArticleCrawler
deriving DecidableEq, Repr

/-- One registry key of `CrawlerDispatcher._crawlers`. `register`
(dispatch_crawler.py line 30) stores the regex
`https://(www\.)?<escaped domain>/*`; since the domain is `re.escape`d, the
pattern is represented structurally by the literal domain it matches. -/
structure DomainPattern where
  domain : String
deriving DecidableEq, Repr

/-- The dispatcher's `_crawlers` dict: pattern key to strategy class, in
insertion order. -/
abbrev Registry : Type := List (DomainPattern × StrategyType)

/-- Python dict assignment `d[k] = v`: replaces the value at an existing key
in place, otherwise appends the new entry. -/
def regSet (reg : Registry) (k : DomainPattern) (v : StrategyType) : Registry :=
  match reg with
  | [] => [(k, v)]
  | (k₁, v₁) :: rest =>
    if k₁ = k then (k₁, v) :: rest else (k₁, v₁) :: regSet rest k v

/-- `CrawlerDispatcher.register` (dispatch_crawler.py lines 26-30): extracts
the netloc from the given pattern URL and stores the strategy under the
`https://(www\.)?<domain>/*` pattern for that domain. -/
def register (reg : Registry) (domain : String) (crawler : StrategyType) : Registry :=
  regSet reg ⟨netlocOf domain⟩ crawler

/-- Python `re.match` of the stored pattern `https://(www\.)?<domain>/*`
against a URL: `re.match` anchors only at the start and `/*` matches zero or
more slashes, so the pattern matches exactly when `https://<domain>` or
`https://www.<domain>` is a prefix of the URL. -/
def patternMatches (p : DomainPattern) (url : String) : Bool :=
  ("https://" ++ p.domain).data.isPrefixOf url.data ||
    ("https://www." ++ p.domain).data.isPrefixOf url.data

/-- Modelled from the spec: the strategy-lookup method of
`CrawlerDispatcher` is absent from the snapshot (`dispatch_crawler.py` defines
only registration). Spec section 4.4: it derives the domain from the URL,
looks up the matching registered pattern, and returns an instance of the
registered strategy; when no pattern matches this is an explicit error
(`none` models the raised/signalled failure). Registration order gives the
first matching pattern, and instantiating the stored class is modelled by
returning it. -/
def get_strategy (reg : Registry) (url : String) : Option StrategyType :=
  (reg.find? (fun pc => patternMatches pc.1 url)).map (fun pc => pc.2)

/-! ### Helper lemmas -/

theorem fieldsMatch_nil {fs : List (String × PyValue)}
    (h : fieldsMatch fs [] = true) : fs = [] := by
  cases fs with
  | nil => rfl
  | cons a l => simp [fieldsMatch] at h

theorem fieldsMatch_cons {fs : List (String × PyValue)} {n : String} {t : FieldType}
    {ss : List (String × FieldType)} (h : fieldsMatch fs ((n, t) :: ss) = true) :
    ∃ v fs₁, fs = (n, v) :: fs₁ ∧ conformsTo v t = true ∧ fieldsMatch fs₁ ss = true := by
  cases fs with
  | nil => simp [fieldsMatch] at h
  | cons a l =>
    obtain ⟨n₁, v⟩ := a
    simp only [fieldsMatch, Bool.and_eq_true, beq_iff_eq] at h
    exact ⟨v, l, by rw [h.1.1], h.1.2, h.2⟩

theorem conformsTo_tStr {v : PyValue} (h : conformsTo v .tStr = true) :
    ∃ s, v = .vstr s := by
  cases v with
  | vstr s => exact ⟨s, rfl⟩
  | vuuid u => simp [conformsTo] at h
  | vmap m => simp [conformsTo] at h

theorem conformsTo_tUUID {v : PyValue} (h : conformsTo v .tUUID = true) :
    ∃ u, v = .vuuid u := by
  cases v with
  | vstr s => simp [conformsTo] at h
  | vuuid u => exact ⟨u, rfl⟩
  | vmap m => simp [conformsTo] at h

theorem conformsTo_tMap {v : PyValue} (h : conformsTo v .tMap = true) :
    ∃ m, v = .vmap m := by
  cases v with
  | vstr s => simp [conformsTo] at h
  | vuuid u => simp [conformsTo] at h
  | vmap m => exact ⟨m, rfl⟩

/-- Round trip through the store representation, together with the form of
the stored primary key: for every valid instance of a concrete variant,
`from_mongo (to_mongo d)` rebuilds `d` exactly, and `to_mongo d` holds the
textual identifier under `_id`. -/
theorem toMongo_fromMongo (d : Document) (h : validDoc d = true) :
    from_mongo d.cls (to_mongo d) = DRes.ok d ∧
      alookup "_id" (to_mongo d) = some (.vstr (uuidToString d.id)) := by
  obtain ⟨cls, idv, fs⟩ := d
  simp only [validDoc, Bool.and_eq_true] at h
  obtain ⟨hc, hf⟩ := h
  cases cls
  case noSQLBaseDocument => simp [isConcrete] at hc
  case articleDocument =>
    simp only [classSchema] at hf
    obtain ⟨v₁, fs, rfl, hc₁, hf⟩ := fieldsMatch_cons hf
    obtain ⟨v₂, fs, rfl, hc₂, hf⟩ := fieldsMatch_cons hf
    obtain ⟨v₃, fs, rfl, hc₃, hf⟩ := fieldsMatch_cons hf
    obtain ⟨v₄, fs, rfl, hc₄, hf⟩ := fieldsMatch_cons hf
    obtain ⟨v₅, fs, rfl, hc₅, hf⟩ := fieldsMatch_cons hf
    obtain rfl := fieldsMatch_nil hf
    obtain ⟨m, rfl⟩ := conformsTo_tMap hc₁
    obtain ⟨l, rfl⟩ := conformsTo_tStr hc₂
    obtain ⟨p, rfl⟩ := conformsTo_tStr hc₃
    obtain ⟨a, rfl⟩ := conformsTo_tUUID hc₄
    obtain ⟨f, rfl⟩ := conformsTo_tStr hc₅
    refine ⟨?_, ?_⟩ <;>
      simp [to_mongo, from_mongo, alookup, aerase, pyStrVal, stringifyTop,
            pyUUIDOf, parseUUID_uuidToString, constructDoc, buildFields,
            classSchema, validateField]
  case repositoryDocument =>
    simp only [classSchema] at hf
    obtain ⟨v₁, fs, rfl, hc₁, hf⟩ := fieldsMatch_cons hf
    obtain ⟨v₂, fs, rfl, hc₂, hf⟩ := fieldsMatch_cons hf
    obtain ⟨v₃, fs, rfl, hc₃, hf⟩ := fieldsMatch_cons hf
    obtain ⟨v₄, fs, rfl, hc₄, hf⟩ := fieldsMatch_cons hf
    obtain ⟨v₅, fs, rfl, hc₅, hf⟩ := fieldsMatch_cons hf
    obtain ⟨v₆, fs, rfl, hc₆, hf⟩ := fieldsMatch_cons hf
    obtain rfl := fieldsMatch_nil hf
    obtain ⟨m, rfl⟩ := conformsTo_tMap hc₁
    obtain ⟨nm, rfl⟩ := conformsTo_tStr hc₂
    obtain ⟨l, rfl⟩ := conformsTo_tStr hc₃
    obtain ⟨p, rfl⟩ := conformsTo_tStr hc₄
    obtain ⟨a, rfl⟩ := conformsTo_tUUID hc₅
    obtain ⟨f, rfl⟩ := conformsTo_tStr hc₆
    refine ⟨?_, ?_⟩ <;>
      simp [to_mongo, from_mongo, alookup, aerase, pyStrVal, stringifyTop,
            pyUUIDOf, parseUUID_uuidToString, constructDoc, buildFields,
            classSchema, validateField]
  case userDocument =>
    simp only [classSchema] at hf
    obtain ⟨v₁, fs, rfl, hc₁, hf⟩ := fieldsMatch_cons hf
    obtain ⟨v₂, fs, rfl, hc₂, hf⟩ := fieldsMatch_cons hf
    obtain rfl := fieldsMatch_nil hf
    obtain ⟨fn, rfl⟩ := conformsTo_tStr hc₁
    obtain ⟨ln, rfl⟩ := conformsTo_tStr hc₂
    refine ⟨?_, ?_⟩ <;>
      simp [to_mongo, from_mongo, alookup, aerase, pyStrVal, stringifyTop,
            pyUUIDOf, parseUUID_uuidToString, constructDoc, buildFields,
            classSchema, validateField]
  case exampleDocument =>
    simp only [classSchema] at hf
    obtain ⟨v₁, fs, rfl, hc₁, hf⟩ := fieldsMatch_cons hf
    obtain rfl := fieldsMatch_nil hf
    obtain ⟨nm, rfl⟩ := conformsTo_tStr hc₁
    refine ⟨?_, ?_⟩ <;>
      simp [to_mongo, from_mongo, alookup, aerase, pyStrVal, stringifyTop,
            pyUUIDOf, parseUUID_uuidToString, constructDoc, buildFields,
            classSchema, validateField]

/-! ### Claims -/

/-- C1: for every valid instance of a concrete Document variant, `to_mongo`
followed by `from_mongo` reconstructs a document equal to the original in
every field; the `id` field is serialized as its textual form under the store
primary-key name `_id` and parsed back into the identifier type on read. -/
theorem c1_roundtrip (d : Document) (h : validDoc d = true) :
    from_mongo d.cls (to_mongo d) = DRes.ok d ∧
      alookup "_id" (to_mongo d) = some (.vstr (uuidToString d.id)) :=
  toMongo_fromMongo d h

/-- Witness for C1 at a concrete article document. -/
theorem c1_roundtrip_witness :
    validDoc ⟨.articleDocument, ⟨5⟩,
      [("content", .vmap (.cons "Title" (.vstr "T") .nil)), ("link", .vstr "L"),
       ("platform", .vstr "P"), ("author_id", .vuuid ⟨6⟩),
       ("author_full_name", .vstr "N")]⟩ = true ∧
    (from_mongo DocClass.articleDocument (to_mongo ⟨.articleDocument, ⟨5⟩,
      [("content", .vmap (.cons "Title" (.vstr "T") .nil)), ("link", .vstr "L"),
       ("platform", .vstr "P"), ("author_id", .vuuid ⟨6⟩),
       ("author_full_name", .vstr "N")]⟩) = DRes.ok ⟨.articleDocument, ⟨5⟩,
      [("content", .vmap (.cons "Title" (.vstr "T") .nil)), ("link", .vstr "L"),
       ("platform", .vstr "P"), ("author_id", .vuuid ⟨6⟩),
       ("author_full_name", .vstr "N")]⟩ ∧
     alookup "_id" (to_mongo ⟨.articleDocument, ⟨5⟩,
      [("content", .vmap (.cons "Title" (.vstr "T") .nil)), ("link", .vstr "L"),
       ("platform", .vstr "P"), ("author_id", .vuuid ⟨6⟩),
       ("author_full_name", .vstr "N")]⟩) = some (.vstr (uuidToString ⟨5⟩))) :=
  ⟨by decide, c1_roundtrip _ (by decide)⟩

/-- Between concrete variants the `isinstance` check of `__eq__` degenerates
to class equality: no concrete variant subclasses another (each is a direct
subclass of the abstract base). -/
theorem isInstanceOf_concrete (c d : DocClass) (hc : isConcrete c = true)
    (hd : isConcrete d = true) : isInstanceOf c d = decide (c = d) := by
  cases c <;> cases d <;> revert hc hd <;> decide

/-- C2: between instances of concrete Document variants, `__eq__` returns
true exactly when the two instances are of the same concrete variant and
share the same `id` (fields other than `id` play no role), and this equality
is symmetric — the concrete variants are all direct subclasses of the base,
so the `isinstance` check never relates two distinct concrete variants. -/
theorem c2_eq (a b : Document) (ha : isConcrete a.cls = true)
    (hb : isConcrete b.cls = true) :
    (pyEq a b = true ↔ a.cls = b.cls ∧ a.id = b.id) ∧ pyEq a b = pyEq b a := by
  have hinst₁ := isInstanceOf_concrete b.cls a.cls hb ha
  have hinst₂ := isInstanceOf_concrete a.cls b.cls ha hb
  constructor
  · unfold pyEq
    rw [hinst₁]
    simp only [Bool.and_eq_true, decide_eq_true_eq, beq_iff_eq]
    exact and_congr_left' eq_comm
  · unfold pyEq
    rw [hinst₁, hinst₂, Bool.eq_iff_iff]
    simp only [Bool.and_eq_true, decide_eq_true_eq, beq_iff_eq]
    constructor
    · rintro ⟨h₁, h₂⟩
      exact ⟨h₁.symm, h₂.symm⟩
    · rintro ⟨h₁, h₂⟩
      exact ⟨h₁.symm, h₂.symm⟩

/-- Witness for C2: two example documents with the same id but different
fields compare equal; changing the id of one makes them unequal. -/
theorem c2_eq_witness :
    pyEq ⟨.exampleDocument, ⟨1⟩, [("name", .vstr "x")]⟩
      ⟨.exampleDocument, ⟨1⟩, [("name", .vstr "y")]⟩ = true ∧
    pyEq ⟨.exampleDocument, ⟨1⟩, [("name", .vstr "x")]⟩
      ⟨.exampleDocument, ⟨2⟩, [("name", .vstr "x")]⟩ = false :=
  ⟨(c2_eq _ _ (by decide) (by decide)).1.mpr ⟨rfl, rfl⟩, by
    have h := (c2_eq ⟨.exampleDocument, ⟨1⟩, [("name", .vstr "x")]⟩
      ⟨.exampleDocument, ⟨2⟩, [("name", .vstr "x")]⟩ (by decide) (by decide)).1
    simp only [Document.mk.injEq] at h
    by_contra hne
    simp only [Bool.not_eq_false] at hne
    exact absurd ((h.mp hne).2) (by decide)⟩

theorem isOk_exists {α : Type} {x : DRes α} (h : x.isOk = true) :
    ∃ a, x = DRes.ok a := by
  cases x with
  | ok a => exact ⟨a, rfl⟩
  | raised e => simp [DRes.isOk] at h

/-- C3 counterexample: a store response holding one record whose `_id` is not
a parsable identifier makes `bulk_find` raise (`from_mongo`'s `ValueError` is
not an `OperationFailure` and propagates out of the list comprehension),
instead of returning the list with that record silently omitted. -/
theorem c3_counterexample :
    bulk_find .exampleDocument (.ok [[("_id", .vstr "x")]]) =
      DRes.raised .valueError := by
  decide

/-- C3 (amended): `bulk_find` returns the empty list when the store operation
fails with an `OperationFailure`; when every returned record deserializes it
returns them all, in order; but a record that fails to deserialize makes the
exception propagate out of `bulk_find` — it is not silently omitted. -/
theorem c3_bulk_find (cls : DocClass) (records : List MRecord) :
    bulk_find cls .opFailure = DRes.ok [] ∧
    ((∀ r ∈ records, (from_mongo cls r).isOk = true) →
      ∃ ds, bulk_find cls (.ok records) = DRes.ok ds ∧
        List.Forall₂ (fun r d => from_mongo cls r = DRes.ok d) records ds) ∧
    (∀ pre r rest e, records = pre ++ r :: rest →
      (∀ q ∈ pre, (from_mongo cls q).isOk = true) →
      from_mongo cls r = DRes.raised e →
      bulk_find cls (.ok records) = DRes.raised e) := by
  refine ⟨rfl, ?_, ?_⟩
  · intro hall
    induction records with
    | nil => exact ⟨[], rfl, List.Forall₂.nil⟩
    | cons r rest ih =>
      obtain ⟨d, hd⟩ := isOk_exists (hall r (List.mem_cons_self r rest))
      obtain ⟨ds, hds, hfa⟩ := ih (fun q hq => hall q (List.mem_cons_of_mem _ hq))
      refine ⟨d :: ds, ?_, List.Forall₂.cons hd hfa⟩
      simp only [bulk_find] at hds ⊢
      simp only [bulkCollect, hd, hds]
  · intro pre r rest e hrec hpre hr
    subst hrec
    induction pre with
    | nil => simp only [bulk_find, List.nil_append, bulkCollect, hr]
    | cons q pre ih =>
      obtain ⟨d, hd⟩ := isOk_exists (hpre q (List.mem_cons_self q pre))
      have hrest := ih (fun p hp => hpre p (List.mem_cons_of_mem _ hp))
      simp only [bulk_find] at hrest ⊢
      simp only [List.cons_append, bulkCollect, hd, List.append_eq, hrest]

/-- Witness for C3 (amended) at concrete store responses. -/
theorem c3_bulk_find_witness :
    bulk_find .exampleDocument .opFailure = DRes.ok [] ∧
    (∃ ds, bulk_find .exampleDocument
        (.ok [[("_id", .vstr "uu"), ("name", .vstr "A")]]) = DRes.ok ds ∧
      List.Forall₂ (fun r d => from_mongo .exampleDocument r = DRes.ok d)
        [[("_id", .vstr "uu"), ("name", .vstr "A")]] ds) ∧
    bulk_find .exampleDocument
      (.ok [[("_id", .vstr "uu"), ("name", .vstr "A")], [("_id", .vstr "x")]]) =
      DRes.raised .valueError :=
  ⟨(c3_bulk_find .exampleDocument []).1,
   (c3_bulk_find .exampleDocument _).2.1 (by decide),
   (c3_bulk_find .exampleDocument _).2.2 [[("_id", .vstr "uu"), ("name", .vstr "A")]]
     [("_id", .vstr "x")] [] .valueError rfl (by decide) (by decide)⟩

/-- C4: `get_or_create` returns the deserialized record when the initial
lookup finds one; when nothing matches it constructs a new instance from the
filter values and returns the result of saving it; and an `OperationFailure`
raised during the lookup is re-raised to the caller, not swallowed. -/
theorem c4_get_or_create (cls : DocClass) (filters : List (String × PyValue))
    (freshId : UUID) (ins : InsertResult) :
    (∀ rec d, rec ≠ [] → from_mongo cls rec = DRes.ok d →
        get_or_create cls filters freshId (.found rec) ins = .ret (some d)) ∧
    (∀ d, constructDoc cls freshId filters = some d →
        get_or_create cls filters freshId .notFound ins = .ret (save d ins)) ∧
    get_or_create cls filters freshId .opFailure ins = .raisedOpFailure := by
  refine ⟨?_, ?_, rfl⟩
  · intro rec d hne hfm
    have hrec : rec.isEmpty = false := by
      cases rec with
      | nil => exact absurd rfl hne
      | cons a l => rfl
    simp [get_or_create, hrec, hfm]
  · intro d hcd
    simp [get_or_create, hcd]

/-- Witness for C4 at concrete inputs for each of the three branches. -/
theorem c4_get_or_create_witness :
    get_or_create .exampleDocument [("name", .vstr "T")] ⟨1⟩
      (.found [("_id", .vstr "uu"), ("name", .vstr "A")]) .ok =
      .ret (some ⟨.exampleDocument, ⟨2⟩, [("name", .vstr "A")]⟩) ∧
    get_or_create .exampleDocument [("name", .vstr "T")] ⟨1⟩ .notFound .ok =
      .ret (save ⟨.exampleDocument, ⟨1⟩, [("name", .vstr "T")]⟩ .ok) ∧
    get_or_create .exampleDocument [("name", .vstr "T")] ⟨1⟩ .opFailure .ok =
      .raisedOpFailure :=
  ⟨(c4_get_or_create _ _ _ _).1 _ _ (by decide) (by decide),
   (c4_get_or_create _ _ _ _).2.1 _ (by decide),
   (c4_get_or_create _ _ _ _).2.2⟩

/-- C5 counterexample: a valid article document whose free-form `content`
mapping holds an identifier-typed value. The conversion loop of `to_mongo`
only walks top-level values, so the produced mapping still contains a
`uuid.UUID` object nested inside `content` — the claim that the output
contains no identifier-typed value anywhere fails. -/
theorem c5_counterexample :
    validDoc ⟨.articleDocument, ⟨1⟩,
      [("content", .vmap (.cons "ref" (.vuuid ⟨2⟩) .nil)), ("link", .vstr "L"),
       ("platform", .vstr "P"), ("author_id", .vuuid ⟨3⟩),
       ("author_full_name", .vstr "N")]⟩ = true ∧
    (to_mongo ⟨.articleDocument, ⟨1⟩,
      [("content", .vmap (.cons "ref" (.vuuid ⟨2⟩) .nil)), ("link", .vstr "L"),
       ("platform", .vstr "P"), ("author_id", .vuuid ⟨3⟩),
       ("author_full_name", .vstr "N")]⟩).any (fun kv => kv.2.hasUUID) = true := by
  constructor
  · decide
  · simp [to_mongo, alookup, aerase, pyStrVal, stringifyTop, PyValue.hasUUID,
          PyMap.hasUUID]

/-- C5 (amended): for every valid document the mapping produced by `to_mongo`
has no `uuid.UUID` object as a top-level value — the identity field is stored
under `_id` in string form and every other top-level identifier-typed field
value is stringified — but values nested inside mapping-valued fields are
left unchanged (see the counterexample). -/
theorem c5_to_mongo_top_level (d : Document) (h : validDoc d = true) :
    (∀ kv ∈ to_mongo d, kv.2.isUUIDObj = false) ∧
    alookup "_id" (to_mongo d) = some (.vstr (uuidToString d.id)) := by
  refine ⟨?_, (toMongo_fromMongo d h).2⟩
  intro kv hkv
  simp only [to_mongo] at hkv
  rw [List.mem_map] at hkv
  obtain ⟨⟨k, v⟩, hmem, rfl⟩ := hkv
  cases v <;> rfl

/-- Witness for C5 (amended) at the same concrete document as the
counterexample: the nested identifier survives, yet no top-level value is a
`uuid.UUID` object. -/
theorem c5_to_mongo_top_level_witness :
    validDoc ⟨.articleDocument, ⟨1⟩,
      [("content", .vmap (.cons "ref" (.vuuid ⟨2⟩) .nil)), ("link", .vstr "L"),
       ("platform", .vstr "P"), ("author_id", .vuuid ⟨3⟩),
       ("author_full_name", .vstr "N")]⟩ = true ∧
    ((∀ kv ∈ to_mongo ⟨.articleDocument, ⟨1⟩,
      [("content", .vmap (.cons "ref" (.vuuid ⟨2⟩) .nil)), ("link", .vstr "L"),
       ("platform", .vstr "P"), ("author_id", .vuuid ⟨3⟩),
       ("author_full_name", .vstr "N")]⟩, kv.2.isUUIDObj = false) ∧
     alookup "_id" (to_mongo ⟨.articleDocument, ⟨1⟩,
      [("content", .vmap (.cons "ref" (.vuuid ⟨2⟩) .nil)), ("link", .vstr "L"),
       ("platform", .vstr "P"), ("author_id", .vuuid ⟨3⟩),
       ("author_full_name", .vstr "N")]⟩) = some (.vstr (uuidToString ⟨1⟩))) :=
  ⟨by decide, c5_to_mongo_top_level _ (by decide)⟩

theorem findByLink_eq_none_of_count {store : List MRecord} {link : String}
    (h : linkCount store link = 0) : findByLink store link = none := by
  rw [linkCount, List.length_eq_zero] at h
  rw [findByLink, List.find?_eq_none]
  intro x hx
  simpa using List.filter_eq_nil_iff.mp h x hx

/-- C7: for both crawler strategies, when the bound variant's `find` on the
link returns an existing record (one that deserializes), `extract` is a no-op
on the store and raises nothing; consequently, starting from a store with no
record for the link, crawling it and then crawling it again (with any
content, user, id, or insert outcome on the second run) leaves exactly one
persisted record for that link. -/
theorem c7_dedup (store : List MRecord) (link : String) :
    (∀ r d content user freshId b,
      findByLink store link = some r →
      from_mongo .articleDocument r = DRes.ok d →
      extractArticle store link content user freshId b = DRes.ok store) ∧
    (∀ r d ce tree user freshId b,
      findByLink store link = some r →
      from_mongo .repositoryDocument r = DRes.ok d →
      extractGithub store link ce tree user freshId b = DRes.ok store) ∧
    (∀ content user freshId, linkCount store link = 0 →
      ∃ st₁, extractArticle store link content user freshId true = DRes.ok st₁ ∧
        linkCount st₁ link = 1 ∧
        ∀ content₂ user₂ freshId₂ b₂,
          extractArticle st₁ link content₂ user₂ freshId₂ b₂ = DRes.ok st₁) ∧
    (∀ tree user freshId, linkCount store link = 0 →
      ∃ st₁, extractGithub store link false tree user freshId true = DRes.ok st₁ ∧
        linkCount st₁ link = 1 ∧
        ∀ ce₂ tree₂ user₂ freshId₂ b₂,
          extractGithub st₁ link ce₂ tree₂ user₂ freshId₂ b₂ = DRes.ok st₁) := by
  refine ⟨?_, ?_, ?_, ?_⟩
  · intro r d content user freshId b hfound hfm
    simp only [extractArticle, hfound, hfm]
  · intro r d ce tree user freshId b hfound hfm
    simp only [extractGithub, hfound, hfm]
  · intro content user freshId h₀
    have hnone := findByLink_eq_none_of_count h₀
    set inst : Document :=
      ⟨.articleDocument, freshId,
        [("content", .vmap content), ("link", .vstr link),
         ("platform", .vstr (netlocOf link)),
         ("author_id", .vuuid user.id),
         ("author_full_name", .vstr user.full_name)]⟩ with hinst
    have hlink : alookup "link" (to_mongo inst) = some (.vstr link) := by
      simp [hinst, to_mongo, alookup, aerase, pyStrVal, stringifyTop]
    have hvalid : validDoc inst = true := by
      simp [hinst, validDoc, isConcrete, fieldsMatch, conformsTo, classSchema]
    have hfound₁ : findByLink (store ++ [to_mongo inst]) link = some (to_mongo inst) := by
      rw [findByLink, List.find?_append]
      rw [findByLink] at hnone
      rw [hnone]
      simp [hlink]
    have hrt : from_mongo .articleDocument (to_mongo inst) = DRes.ok inst :=
      (toMongo_fromMongo inst hvalid).1
    refine ⟨store ++ [to_mongo inst], ?_, ?_, ?_⟩
    · simp only [extractArticle, hnone, if_true]
    · rw [linkCount, List.filter_append, List.length_append]
      rw [linkCount] at h₀
      rw [h₀]
      simp [hlink]
    · intro content₂ user₂ freshId₂ b₂
      simp only [extractArticle, hfound₁, hrt]
  · intro tree user freshId h₀
    have hnone := findByLink_eq_none_of_count h₀
    set inst : Document :=
      ⟨.repositoryDocument, freshId,
        [("content", .vmap tree), ("name", .vstr (repoNameOf link)),
         ("link", .vstr link), ("platform", .vstr "github"),
         ("author_id", .vuuid user.id),
         ("author_full_name", .vstr user.full_name)]⟩ with hinst
    have hlink : alookup "link" (to_mongo inst) = some (.vstr link) := by
      simp [hinst, to_mongo, alookup, aerase, pyStrVal, stringifyTop]
    have hvalid : validDoc inst = true := by
      simp [hinst, validDoc, isConcrete, fieldsMatch, conformsTo, classSchema]
    have hfound₁ : findByLink (store ++ [to_mongo inst]) link = some (to_mongo inst) := by
      rw [findByLink, List.find?_append]
      rw [findByLink] at hnone
      rw [hnone]
      simp [hlink]
    have hrt : from_mongo .repositoryDocument (to_mongo inst) = DRes.ok inst :=
      (toMongo_fromMongo inst hvalid).1
    refine ⟨store ++ [to_mongo inst], ?_, ?_, ?_⟩
    · simp only [extractGithub, hnone, Bool.false_eq_true, if_false, if_true]
    · rw [linkCount, List.filter_append, List.length_append]
      rw [linkCount] at h₀
      rw [h₀]
      simp [hlink]
    · intro ce₂ tree₂ user₂ freshId₂ b₂
      simp only [extractGithub, hfound₁, hrt]

/-- Witness for C7: concrete store states exercising each conjunct. -/
theorem c7_dedup_witness :
    extractArticle [[("link", .vstr "https://s.io/a"), ("_id", .vstr "u"),
        ("content", .vmap .nil), ("platform", .vstr "s.io"),
        ("author_id", .vstr "uu"), ("author_full_name", .vstr "N")]]
      "https://s.io/a" .nil ⟨⟨9⟩, "U"⟩ ⟨4⟩ true =
      DRes.ok [[("link", .vstr "https://s.io/a"), ("_id", .vstr "u"),
        ("content", .vmap .nil), ("platform", .vstr "s.io"),
        ("author_id", .vstr "uu"), ("author_full_name", .vstr "N")]] ∧
    (∃ st₁, extractArticle [] "https://s.io/a" .nil ⟨⟨9⟩, "U"⟩ ⟨4⟩ true = DRes.ok st₁ ∧
      linkCount st₁ "https://s.io/a" = 1 ∧
      ∀ content₂ user₂ freshId₂ b₂,
        extractArticle st₁ "https://s.io/a" content₂ user₂ freshId₂ b₂ = DRes.ok st₁) ∧
    (∃ st₁, extractGithub [] "https://github.com/u/r" false .nil ⟨⟨9⟩, "U"⟩ ⟨4⟩ true =
        DRes.ok st₁ ∧
      linkCount st₁ "https://github.com/u/r" = 1 ∧
      ∀ ce₂ tree₂ user₂ freshId₂ b₂,
        extractGithub st₁ "https://github.com/u/r" ce₂ tree₂ user₂ freshId₂ b₂ =
          DRes.ok st₁) :=
  ⟨(c7_dedup _ "https://s.io/a").1
      [("link", .vstr "https://s.io/a"), ("_id", .vstr "u"),
       ("content", .vmap .nil), ("platform", .vstr "s.io"),
       ("author_id", .vstr "uu"), ("author_full_name", .vstr "N")]
      ⟨.articleDocument, ⟨1⟩,
        [("content", .vmap .nil), ("link", .vstr "https://s.io/a"),
         ("platform", .vstr "s.io"), ("author_id", .vuuid ⟨2⟩),
         ("author_full_name", .vstr "N")]⟩ .nil ⟨⟨9⟩, "U"⟩ ⟨4⟩ true
      (by decide) (by decide),
   (c7_dedup [] "https://s.io/a").2.2.1 .nil ⟨⟨9⟩, "U"⟩ ⟨4⟩ (by decide),
   (c7_dedup [] "https://github.com/u/r").2.2.2 .nil ⟨⟨9⟩, "U"⟩ ⟨4⟩ (by decide)⟩

/-- C9: an execution of `get_or_create` that returns `None`: the lookup finds
nothing, the new instance is constructed, and its `save` hits a `WriteError`,
which `save` swallows by returning `None`; `get_or_create` then returns that
`None` to the caller. -/
theorem c9_get_or_create_none :
    get_or_create .exampleDocument [("name", .vstr "Test Entry")] ⟨7⟩
      .notFound .writeError = .ret none := by
  decide

/-- C8: whatever the clone, walk, and save phases do, once the dedup check
has passed (so the temporary directory is created) every exit path of
`GithubCrawler.extract` ends with the temporary directory removed; the
conjuncts also exhibit the distinct exit paths of the model: empty-clone
early return, completed save (including the swallowed `WriteError`), and
exceptions raised during cloning, walking, or saving. -/
theorem c8_tmpdir_removed (clone : CloneResult) (walk : WalkResult)
    (sv : SaveCall) (s₀ : FsState) (more : List String) (t : PyMap) :
    (githubExtractFs false clone walk sv s₀).2.tmpExists = false ∧
    (githubExtractFs false (.cloned []) walk sv s₀).1 = .emptyClone ∧
    (githubExtractFs false (.cloned ("repo" :: more)) (.tree t) .ok s₀).1 = .completed ∧
    (githubExtractFs false (.cloned ("repo" :: more)) (.tree t) .writeError s₀).1 =
      .completed ∧
    (githubExtractFs false .raises walk sv s₀).1 = .raised ∧
    (githubExtractFs false (.cloned ("repo" :: more)) .raises sv s₀).1 = .raised ∧
    (githubExtractFs false (.cloned ("repo" :: more)) (.tree t) .raises s₀).1 = .raised :=
  ⟨rfl, rfl, rfl, rfl, rfl, rfl, rfl⟩

/-- C10: every invocation of `GithubCrawler.extract` that passes the dedup
check leaves the process-wide working directory pointing at the temporary
directory on every exit path — nothing restores it — while the `finally`
block has removed that directory; an invocation stopped by the dedup check
leaves the filesystem state untouched. -/
theorem c10_cwd_dangling (clone : CloneResult) (walk : WalkResult)
    (sv : SaveCall) (s₀ : FsState) :
    (githubExtractFs false clone walk sv s₀).2.cwdIsTmp = true ∧
    (githubExtractFs false clone walk sv s₀).2.tmpExists = false ∧
    (githubExtractFs true clone walk sv s₀).2 = s₀ :=
  ⟨rfl, rfl, rfl⟩

theorem isPrefixOf_append_of_isPrefixOf {a b : String} (c : String)
    (h : a.data.isPrefixOf b.data = true) :
    a.data.isPrefixOf (b ++ c).data = true := by
  rw [ List.isPrefixOf_iff_prefix] at h ⊢
  rw [String.data_append]
  exact h.trans (List.prefix_append _ _)

/-- C6: after registering a strategy for `https://example.com`, every URL on
that domain — any path suffix, with or without the `www.` variant the stored
pattern tolerates — resolves to the registered strategy; a URL on a domain
that was never registered resolves to no strategy, which the lookup signals
as an explicit error. -/
theorem c6_dispatcher :
    (∀ (x : StrategyType) (rest : String),
      get_strategy (register [] "https://example.com" x)
        ("https://example.com/" ++ rest) = some x) ∧
    (∀ (x : StrategyType) (rest : String),
      get_strategy (register [] "https://example.com" x)
        ("https://www.example.com/" ++ rest) = some x) ∧
    (∀ x : StrategyType,
      get_strategy (register [] "https://example.com" x)
        "https://unregistered.org/page" = none) ∧
    (∀ url : String, get_strategy [] url = none) := by
  have hreg : ∀ x : StrategyType,
      register [] "https://example.com" x = [(⟨"example.com"⟩, x)] :=
    fun x => rfl
  refine ⟨?_, ?_, ?_, fun url => rfl⟩
  · intro x rest
    have h₁ : patternMatches ⟨"example.com"⟩ ("https://example.com/" ++ rest) = true := by
      have hp := isPrefixOf_append_of_isPrefixOf (a := "https://" ++ "example.com")
        (b := "https://example.com/") rest (by decide)
      simp [patternMatches, hp]
    rw [hreg]
    simp [get_strategy, List.find?, h₁]
  · intro x rest
    have h₁ : patternMatches ⟨"example.com"⟩ ("https://www.example.com/" ++ rest) = true := by
      have hp := isPrefixOf_append_of_isPrefixOf (a := "https://www." ++ "example.com")
        (b := "https://www.example.com/") rest (by decide)
      simp [patternMatches, hp]
    rw [hreg]
    simp [get_strategy, List.find?, h₁]
  · intro x
    have h₁ : patternMatches ⟨"example.com"⟩ "https://unregistered.org/page" = false := by
      decide
    rw [hreg]
    simp [get_strategy, List.find?, h₁]

end LlmEng
